import Mathlib

/-!
Verification of the stale-branch cleaner core (`src/lib/cleaner.js`).

The embedding models the host API explicitly: `fetchPage p` is the response to
`GET /repository/branches?per_page=100&page=p` (`none` meaning the request
errored), and `deleteOk n` tells whether `DELETE /repository/branches/n`
succeeds.  The current wall-clock time `Date.now()` is an explicit `now`
parameter (milliseconds since epoch), and the unbounded `while (true)`
pagination loop is given explicit fuel.  Timestamps are integers in
milliseconds; a commit date string that does not parse (JS `NaN`) is `none`.
-/

/-- A branch object as returned by the GitLab API.  `isProtected` embeds the
JS field `branch.protected` (`protected` is a Lean keyword); `committed_date`
is the value of `new Date(branch.commit.committed_date).getTime()` in
milliseconds, `none` when the date string does not parse (JS `NaN`). -/
structure Branch where
  name : String
  isProtected : Bool
  committed_date : Option Int
deriving Repr, DecidableEq

/-- The run configuration handed to `runCleaner` (token, projectId and the
json flag only affect I/O and are omitted). -/
structure Config where
  mainBranch : String
  staleDays : Nat
  dryRun : Bool
  excludedBranches : List String
deriving Repr, DecidableEq

/-- The remote host behaviour: page responses for the branch listing and
per-branch outcomes of delete calls. -/
structure Host where
  fetchPage : Nat → Option (List Branch)
  deleteOk : String → Bool

/-- The mutable `result` record of `runCleaner` (presentation-only fields
`projectId`, `dryRun`, `excludedBranches` omitted). -/
structure RunResult where
  branchesScanned : Nat
  branchesEligible : Nat
  branchesDeleted : Nat
  branchesFailed : Nat
  failedBranches : List String
  success : Bool
deriving Repr, DecidableEq

/-- Zero-initialized result record, as built at the top of `runCleaner`. -/
def initResult : RunResult :=
  { branchesScanned := 0
    branchesEligible := 0
    branchesDeleted := 0
    branchesFailed := 0
    failedBranches := []
    success := true }

/-- Fixed page size of the lister (`const perPage = 100`). -/
def perPage : Nat := 100

/-- Milliseconds per day, `1000 * 60 * 60 * 24`, as a rational number. -/
def msPerDay : ℚ := 1000 * 60 * 60 * 24

/-- Outcome of `getBranches`: the aggregated branch list (`none` if a page
request failed, mirroring the thrown fetch error) together with the list of
page numbers actually requested, in request order. -/
structure FetchOutcome where
  branches : Option (List Branch)
  requested : List Nat
deriving Repr, DecidableEq

/-- The pagination loop of `getBranches`: request page `page`, append the
data, advance to `page + 1` while a full page (length = `perPage`) came back,
stop on the first short page.  A failed request discards the accumulated
branches (the JS code throws).  `fuel` bounds the unbounded JS loop. -/
def getBranchesLoop (fetchPage : Nat → Option (List Branch)) :
    Nat → Nat → List Branch → FetchOutcome
  | 0, _, _ => ⟨none, []⟩
  | fuel + 1, page, acc =>
    match fetchPage page with
    | none => ⟨none, [page]⟩
    | some data =>
      if data.length < perPage then
        ⟨some (acc ++ data), [page]⟩
      else
        let rest := getBranchesLoop fetchPage fuel (page + 1) (acc ++ data)
        ⟨rest.branches, page :: rest.requested⟩

/-- The branch lister `getBranches`: starts at page 1 with an empty
accumulator. -/
def getBranches (fetchPage : Nat → Option (List Branch)) (fuel : Nat) :
    FetchOutcome :=
  getBranchesLoop fetchPage fuel 1 []

/-- Embeds `isBranchStale`: the age in days is the continuous quantity
`(Date.now() - updatedAt.getTime()) / (1000 * 60 * 60 * 24)`; the branch is
stale when it strictly exceeds `staleDays`.  An unparsable commit date gives
JS `NaN`, for which the comparison is false. -/
def isBranchStale (cfg : Config) (now : Int) (branch : Branch) : Bool :=
  match branch.committed_date with
  | none => false
  | some updatedAt =>
    decide (((now : ℚ) - (updatedAt : ℚ)) / msPerDay > (cfg.staleDays : ℚ))

/-- The age of a branch in (fractional) days at time `now`; `none` when the
commit date did not parse. -/
def ageDays (now : Int) (branch : Branch) : Option ℚ :=
  branch.committed_date.map (fun t => ((now : ℚ) - (t : ℚ)) / msPerDay)

/-- Embeds the `staleBranches` filter of `runCleaner`: keep branches that are
not the main branch, not protected, stale, and not excluded. -/
def staleBranches (cfg : Config) (now : Int) (branches : List Branch) :
    List Branch :=
  branches.filter (fun branch =>
    branch.name != cfg.mainBranch &&
    !branch.isProtected &&
    isBranchStale cfg now branch &&
    !(cfg.excludedBranches.contains branch.name))

/-- Embeds one call of `deleteBranch branchName` as a state transformer on
the result record paired with the list of delete API calls issued so far.
In dry-run mode nothing happens (no network call, no counter change); else a
delete call is issued and either the deleted count or the failure fields are
updated. -/
def deleteBranch (dryRun : Bool) (deleteOk : String → Bool)
    (st : RunResult × List String) (branchName : String) :
    RunResult × List String :=
  if dryRun then st
  else
    let calls := st.2 ++ [branchName]
    if deleteOk branchName then
      ({ st.1 with branchesDeleted := st.1.branchesDeleted + 1 }, calls)
    else
      ({ st.1 with
          branchesFailed := st.1.branchesFailed + 1
          failedBranches := st.1.failedBranches ++ [branchName]
          success := false },
        calls)

/-- Embeds the body of `runCleaner`: fetch all branches (on failure the outer
catch leaves all counts zero and sets `success := false`; no delete call is
ever made), record the scanned and eligible counts, then run `deleteBranch`
over the eligible branch names in order.  The second component is the list of
delete API calls issued, in order. -/
def runCleaner (cfg : Config) (host : Host) (now : Int) (fuel : Nat) :
    RunResult × List String :=
  match (getBranches host.fetchPage fuel).branches with
  | none => ({ initResult with success := false }, [])
  | some branches =>
    let result := { initResult with branchesScanned := branches.length }
    let stale := staleBranches cfg now branches
    let result2 := { result with branchesEligible := stale.length }
    (stale.map Branch.name).foldl (deleteBranch cfg.dryRun host.deleteOk)
      (result2, [])

/-! Basic computation lemmas. -/

/-- The staleness test, rewritten from the rational-division form to an
equivalent integer comparison, for concrete evaluation. -/
lemma isBranchStale_eq_int (cfg : Config) (now : Int) (b : Branch) :
    isBranchStale cfg now b =
      match b.committed_date with
      | none => false
      | some t => decide ((cfg.staleDays : Int) * 86400000 < now - t) := by
  cases h : b.committed_date with
  | none => simp [isBranchStale, h]
  | some t =>
    simp only [isBranchStale, h]
    rw [decide_eq_decide]
    have hpos : (0 : ℚ) < msPerDay := by norm_num [msPerDay]
    rw [gt_iff_lt, lt_div_iff₀ hpos]
    rw [show msPerDay = ((86400000 : ℤ) : ℚ) by norm_num [msPerDay]]
    exact_mod_cast Iff.rfl

/-- The filter with the staleness test in integer form, for concrete
evaluation. -/
lemma staleBranches_eq_int (cfg : Config) (now : Int) (l : List Branch) :
    staleBranches cfg now l =
      l.filter (fun b =>
        b.name != cfg.mainBranch &&
        !b.isProtected &&
        (match b.committed_date with
         | none => false
         | some t => decide ((cfg.staleDays : Int) * 86400000 < now - t)) &&
        !(cfg.excludedBranches.contains b.name)) := by
  simp only [staleBranches, isBranchStale_eq_int]

/-- In dry-run mode the deletion loop leaves the state untouched: no counter
changes and no delete call recorded. -/
lemma foldl_deleteBranch_dry (ok : String → Bool) (l : List String)
    (st : RunResult × List String) :
    l.foldl (deleteBranch true ok) st = st := by
  induction l generalizing st with
  | nil => rfl
  | cons a l ih => rw [List.foldl_cons, deleteBranch, if_pos rfl]; exact ih st

/-- Full characterisation of the deletion loop when dry-run is off: every
name in the list gets exactly one delete call, appended in order; successes
and failures are counted by partitioning the list with `deleteOk`; the failed
names are appended in processing order; success survives iff every delete
succeeded. -/
lemma foldl_deleteBranch_run (ok : String → Bool) (l : List String)
    (r : RunResult) (calls : List String) :
    l.foldl (deleteBranch false ok) (r, calls) =
      ({ r with
          branchesDeleted := r.branchesDeleted + (l.filter (fun n => ok n)).length
          branchesFailed := r.branchesFailed + (l.filter (fun n => !(ok n))).length
          failedBranches := r.failedBranches ++ l.filter (fun n => !(ok n))
          success := r.success && l.all (fun n => ok n) },
        calls ++ l) := by
  induction l generalizing r calls with
  | nil => simp
  | cons a l ih =>
    by_cases hok : ok a = true
    · rw [List.foldl_cons,
        show deleteBranch false ok (r, calls) a =
          ({ r with branchesDeleted := r.branchesDeleted + 1 }, calls ++ [a]) by
            simp [deleteBranch, hok],
        ih]
      simp [hok, List.filter_cons, List.all_cons, Nat.add_assoc,
        Nat.add_comm, Nat.add_left_comm]
    · rw [List.foldl_cons,
        show deleteBranch false ok (r, calls) a =
          ({ r with
              branchesFailed := r.branchesFailed + 1
              failedBranches := r.failedBranches ++ [a]
              success := false }, calls ++ [a]) by
            simp [deleteBranch, hok],
        ih]
      simp [hok, List.filter_cons, List.all_cons, Nat.add_assoc,
        Nat.add_comm, Nat.add_left_comm]

/-- When the branch fetch fails, `runCleaner` returns the zero-initialized
record with `success := false` and issues no delete call. -/
lemma runCleaner_fetch_none (cfg : Config) (host : Host) (now : Int)
    (fuel : Nat) (h : (getBranches host.fetchPage fuel).branches = none) :
    runCleaner cfg host now fuel = ({ initResult with success := false }, []) := by
  simp [runCleaner, h]

/-- When the branch fetch succeeds, `runCleaner` records the scanned and
eligible counts and folds the deletion step over the eligible names. -/
lemma runCleaner_fetch_some (cfg : Config) (host : Host) (now : Int)
    (fuel : Nat) (bs : List Branch)
    (h : (getBranches host.fetchPage fuel).branches = some bs) :
    runCleaner cfg host now fuel =
      ((staleBranches cfg now bs).map Branch.name).foldl
        (deleteBranch cfg.dryRun host.deleteOk)
        ({ initResult with
            branchesScanned := bs.length
            branchesEligible := (staleBranches cfg now bs).length }, []) := by
  simp [runCleaner, h]

/-- One-step unfolding of the pagination loop. -/
lemma getBranchesLoop_succ (fetchPage : Nat → Option (List Branch))
    (fuel page : Nat) (acc : List Branch) :
    getBranchesLoop fetchPage (fuel + 1) page acc =
      match fetchPage page with
      | none => ⟨none, [page]⟩
      | some data =>
        if data.length < perPage then ⟨some (acc ++ data), [page]⟩
        else
          ⟨(getBranchesLoop fetchPage fuel (page + 1) (acc ++ data)).branches,
           page :: (getBranchesLoop fetchPage fuel (page + 1) (acc ++ data)).requested⟩ :=
  rfl

/-- General pagination correctness: if pages `start..k` all answer, pages
before `k` are full (`perPage` items) and page `k` is short, then the loop
requests exactly pages `start..k` in order and returns the concatenation of
their items after the accumulator. -/
lemma getBranchesLoop_spec (fetchPage : Nat → Option (List Branch))
    (pageData : Nat → List Branch) (k : Nat)
    (hshort : (pageData k).length < perPage) :
    ∀ (fuel start : Nat) (acc : List Branch),
      start ≤ k → k < start + fuel →
      (∀ p, start ≤ p → p ≤ k → fetchPage p = some (pageData p)) →
      (∀ p, start ≤ p → p < k → (pageData p).length = perPage) →
      getBranchesLoop fetchPage fuel start acc =
        ⟨some (acc ++ (List.range' start (k + 1 - start)).flatMap pageData),
         List.range' start (k + 1 - start)⟩ := by
  intro fuel
  induction fuel with
  | zero => intro start acc h1 h2 _ _; omega
  | succ fuel ih =>
    intro start acc h1 h2 hf hfull
    rw [getBranchesLoop_succ, hf start le_rfl h1]
    by_cases hsk : start = k
    · subst hsk
      dsimp only
      rw [if_pos hshort]
      rw [show start + 1 - start = 1 by omega]
      simp [List.range']
    · have hlt : start < k := lt_of_le_of_ne h1 hsk
      have hfull0 : (pageData start).length = perPage := hfull start le_rfl hlt
      dsimp only
      rw [if_neg (by omega)]
      rw [ih (start + 1) (acc ++ pageData start) (by omega) (by omega)
        (fun p hp1 hp2 => hf p (by omega) hp2)
        (fun p hp1 hp2 => hfull p (by omega) hp2)]
      have hsplit : k + 1 - start = (k + 1 - (start + 1)) + 1 := by omega
      rw [hsplit]
      simp [List.range', List.append_assoc]

/-- If a requested page actually failed, the loop reports failure: no partial
branch list survives. -/
lemma getBranchesLoop_fail (fetchPage : Nat → Option (List Branch)) :
    ∀ (fuel start : Nat) (acc : List Branch) (p : Nat),
      p ∈ (getBranchesLoop fetchPage fuel start acc).requested →
      fetchPage p = none →
      (getBranchesLoop fetchPage fuel start acc).branches = none := by
  intro fuel
  induction fuel with
  | zero => intro start acc p hp _; simp [getBranchesLoop] at hp
  | succ fuel ih =>
    intro start acc p hp hnone
    cases hstart : fetchPage start with
    | none => simp [getBranchesLoop_succ, hstart]
    | some data =>
      by_cases hlen : data.length < perPage
      · rw [getBranchesLoop_succ, hstart] at hp
        dsimp only at hp
        rw [if_pos hlen] at hp
        simp at hp
        subst hp
        rw [hstart] at hnone
        cases hnone
      · rw [getBranchesLoop_succ, hstart] at hp ⊢
        dsimp only at hp ⊢
        rw [if_neg hlen] at hp ⊢
        simp at hp ⊢
        rcases hp with rfl | hp
        · rw [hstart] at hnone; cases hnone
        · exact ih (start + 1) (acc ++ data) p hp hnone

/-! Concrete scenario data, taken from the testable properties of the spec. -/

/-- A generic branch used to populate pages in the pagination scenario. -/
def exampleBranch : Branch := ⟨"b", false, some 0⟩

/-- Host listing for the pagination scenario: pages 1 and 2 return 100 items,
page 3 returns 37, and page 4 onward would return another full page if it
were ever requested. -/
def examplePages : Nat → Option (List Branch) := fun p =>
  if p = 3 then some (List.replicate 37 exampleBranch)
  else some (List.replicate 100 exampleBranch)

/-- Configuration of the filter example: main branch "main", threshold 60
days, no exclusions. -/
def exCfg : Config := ⟨"main", 60, true, []⟩

/-- The four branches of the filter example, with ages 200, 70, 90 and 10
days relative to `now = 0` (one day is 86400000 ms). -/
def exBranches : List Branch :=
  [⟨"main", false, some (-(200 * 86400000))⟩,
   ⟨"feat/x", false, some (-(70 * 86400000))⟩,
   ⟨"release", true, some (-(90 * 86400000))⟩,
   ⟨"feat/y", false, some (-(10 * 86400000))⟩]

/-- Configuration of the partial-failure scenario (dry-run off). -/
def exCfg2 : Config := ⟨"main", 60, false, []⟩

/-- Five eligible branches, each 100 days old at `now = 0`. -/
def ex5 : List Branch :=
  [⟨"branch#1", false, some (-(100 * 86400000))⟩,
   ⟨"branch#2", false, some (-(100 * 86400000))⟩,
   ⟨"branch#3", false, some (-(100 * 86400000))⟩,
   ⟨"branch#4", false, some (-(100 * 86400000))⟩,
   ⟨"branch#5", false, some (-(100 * 86400000))⟩]

/-- Host of the partial-failure scenario: one short page listing the five
branches; every delete succeeds except the one for branch#3. -/
def exHost2 : Host := ⟨fun _ => some ex5, fun n => n != "branch#3"⟩

/-- A host whose every page request fails. -/
def hostFail : Host := ⟨fun _ => none, fun _ => true⟩

/-- A branch whose last commit is at the epoch (timestamp 0). -/
def bEpoch : Branch := ⟨"feature/old", false, some 0⟩

/-- A branch whose commit date string did not parse. -/
def bBadDate : Branch := ⟨"bad-date", false, none⟩

/-- Page contents of the pagination scenario, as plain lists. -/
def examplePagesData : Nat → List Branch := fun p =>
  if p = 3 then List.replicate 37 exampleBranch
  else List.replicate 100 exampleBranch

/-- The staleness test expressed through `ageDays`: stale means the age
parsed and strictly exceeds the threshold. -/
lemma isBranchStale_iff_age (cfg : Config) (now : Int) (b : Branch) :
    isBranchStale cfg now b = true ↔
      ∃ a, ageDays now b = some a ∧ (cfg.staleDays : ℚ) < a := by
  cases h : b.committed_date with
  | none => simp [isBranchStale, h, ageDays]
  | some t => simp [isBranchStale, h, ageDays, gt_iff_lt]

/-- Partitioning a list by a boolean predicate preserves the length. -/
lemma length_filter_add_length_filter_not {α : Type} (p : α → Bool)
    (l : List α) :
    (l.filter p).length + (l.filter (fun a => !(p a))).length = l.length := by
  induction l with
  | nil => rfl
  | cons a l ih => cases hp : p a <;> simp [List.filter_cons, hp] <;> omega

/-! The claims. -/

/-- C1: a branch is in the eligible set computed by the filter iff its name
differs from the main branch name, its protected flag is false, its age in
days strictly exceeds the threshold, and its name is not in the exclusion
list; in the example scenario (main at age 200, feat/x at 70 unprotected,
release at 90 protected, feat/y at 10, threshold 60) the eligible set is
exactly feat/x. -/
theorem C1_eligibility_characterization :
    (∀ (cfg : Config) (now : Int) (branches : List Branch) (b : Branch),
      b ∈ staleBranches cfg now branches ↔
        (b ∈ branches ∧ b.name ≠ cfg.mainBranch ∧ b.isProtected = false ∧
         (∃ a, ageDays now b = some a ∧ (cfg.staleDays : ℚ) < a) ∧
         b.name ∉ cfg.excludedBranches))
    ∧ (staleBranches exCfg 0 exBranches).map Branch.name = ["feat/x"] := by
  constructor
  · intro cfg now branches b
    rw [staleBranches, List.mem_filter, ← isBranchStale_iff_age]
    simp [and_assoc]
  · rw [staleBranches_eq_int]; decide

/-- C2: with dry-run off and a successful fetch, a failed deletion appends
the branch name to the failed list, counts as a failure, forces overall
success to false, and does not stop the loop: every eligible branch still
receives its delete call; in the five-branch scenario where only branch#3
fails, the run ends with 4 deleted, 1 failed, failed list [branch#3] and
success = false. -/
theorem C2_partial_failure_tolerance :
    (∀ (cfg : Config) (host : Host) (now : Int) (fuel : Nat)
       (bs : List Branch),
      cfg.dryRun = false →
      (getBranches host.fetchPage fuel).branches = some bs →
      ((runCleaner cfg host now fuel).2 =
          (staleBranches cfg now bs).map Branch.name ∧
       (runCleaner cfg host now fuel).1.failedBranches =
          ((staleBranches cfg now bs).map Branch.name).filter
            (fun n => !(host.deleteOk n)) ∧
       (runCleaner cfg host now fuel).1.branchesFailed =
          (((staleBranches cfg now bs).map Branch.name).filter
            (fun n => !(host.deleteOk n))).length ∧
       ((∃ n ∈ (staleBranches cfg now bs).map Branch.name,
           host.deleteOk n = false) →
         (runCleaner cfg host now fuel).1.success = false)))
    ∧ runCleaner exCfg2 exHost2 0 1 =
        ({ branchesScanned := 5, branchesEligible := 5, branchesDeleted := 4,
           branchesFailed := 1, failedBranches := ["branch#3"],
           success := false },
         ["branch#1", "branch#2", "branch#3", "branch#4", "branch#5"]) := by
  constructor
  · intro cfg host now fuel bs hdry hfetch
    rw [runCleaner_fetch_some cfg host now fuel bs hfetch, hdry,
      foldl_deleteBranch_run]
    refine ⟨by simp, by simp [initResult], by simp [initResult], ?_⟩
    rintro ⟨n, hn, hok⟩
    simp only [initResult, Bool.true_and]
    exact List.all_eq_false.mpr ⟨n, hn, by simp [hok]⟩
  · rw [runCleaner_fetch_some exCfg2 exHost2 0 1 ex5 rfl,
      staleBranches_eq_int]
    decide

/-- Witness for C2 at the five-branch scenario. -/
theorem C2_partial_failure_tolerance_witness :
    (runCleaner exCfg2 exHost2 0 1).2 =
        (staleBranches exCfg2 0 ex5).map Branch.name ∧
      (runCleaner exCfg2 exHost2 0 1).1.failedBranches =
        ((staleBranches exCfg2 0 ex5).map Branch.name).filter
          (fun n => !(exHost2.deleteOk n)) ∧
      (runCleaner exCfg2 exHost2 0 1).1.branchesFailed =
        (((staleBranches exCfg2 0 ex5).map Branch.name).filter
          (fun n => !(exHost2.deleteOk n))).length ∧
      ((∃ n ∈ (staleBranches exCfg2 0 ex5).map Branch.name,
          exHost2.deleteOk n = false) →
        (runCleaner exCfg2 exHost2 0 1).1.success = false) :=
  C2_partial_failure_tolerance.1 exCfg2 exHost2 0 1 ex5 rfl rfl

/-- C3: with dry-run on, no delete call is ever issued to the host API,
whatever the eligible set is, and the final deleted count is 0. -/
theorem C3_dry_run_invariant :
    ∀ (cfg : Config) (host : Host) (now : Int) (fuel : Nat),
      cfg.dryRun = true →
      (runCleaner cfg host now fuel).2 = [] ∧
      (runCleaner cfg host now fuel).1.branchesDeleted = 0 := by
  intro cfg host now fuel hdry
  cases hfetch : (getBranches host.fetchPage fuel).branches with
  | none => rw [runCleaner_fetch_none cfg host now fuel hfetch]; exact ⟨rfl, rfl⟩
  | some bs =>
    rw [runCleaner_fetch_some cfg host now fuel bs hfetch, hdry,
      foldl_deleteBranch_dry]
    exact ⟨rfl, rfl⟩

/-- Witness for C3: a dry-run over the five-branch host issues no delete
call and reports zero deletions. -/
theorem C3_dry_run_invariant_witness :
    (runCleaner exCfg exHost2 0 1).2 = [] ∧
      (runCleaner exCfg exHost2 0 1).1.branchesDeleted = 0 :=
  C3_dry_run_invariant exCfg exHost2 0 1 rfl

set_option maxRecDepth 10000 in
/-- C4: the lister requests pages starting at 1 with fixed page size 100,
appends each page in order, advances exactly while a page has 100 items and
stops at the first shorter page; with pages of 100, 100 and 37 items it
returns 237 branches and never requests page 4. -/
theorem C4_pagination :
    (∀ (fetchPage : Nat → Option (List Branch))
       (pageData : Nat → List Branch) (k fuel : Nat),
      1 ≤ k → k ≤ fuel →
      (∀ p, 1 ≤ p → p ≤ k → fetchPage p = some (pageData p)) →
      (∀ p, 1 ≤ p → p < k → (pageData p).length = perPage) →
      (pageData k).length < perPage →
      getBranches fetchPage fuel =
        ⟨some ((List.range' 1 k).flatMap pageData), List.range' 1 k⟩)
    ∧ getBranches examplePages 10 =
        ⟨some (List.replicate 237 exampleBranch), [1, 2, 3]⟩ := by
  constructor
  · intro fetchPage pageData k fuel h1 h2 hf hfull hshort
    rw [getBranches,
      getBranchesLoop_spec fetchPage pageData k hshort fuel 1 [] h1
        (by omega) hf hfull]
    rw [show k + 1 - 1 = k by omega]
    simp
  · decide

/-- Witness for C4 via its general part at the 100/100/37 host. -/
theorem C4_pagination_witness :
    getBranches examplePages 10 =
      ⟨some ((List.range' 1 3).flatMap examplePagesData), List.range' 1 3⟩ :=
  C4_pagination.1 examplePages examplePagesData 3 10 (by decide) (by decide)
    (fun p h1 h2 => by interval_cases p <;> rfl)
    (fun p h1 h2 => by interval_cases p <;> rfl)
    (by decide)

/-- C5: if some requested page of the branch listing fails, the listing as a
whole fails (no partial branch list), no deletion is attempted, and the run
ends with all counts zero and success = false. -/
theorem C5_fetch_failure_aborts :
    ∀ (cfg : Config) (host : Host) (now : Int) (fuel : Nat) (p : Nat),
      p ∈ (getBranches host.fetchPage fuel).requested →
      host.fetchPage p = none →
      (getBranches host.fetchPage fuel).branches = none ∧
      runCleaner cfg host now fuel =
        ({ branchesScanned := 0, branchesEligible := 0, branchesDeleted := 0,
           branchesFailed := 0, failedBranches := [], success := false },
         []) := by
  intro cfg host now fuel p hp hfail
  have hnone : (getBranches host.fetchPage fuel).branches = none :=
    getBranchesLoop_fail host.fetchPage fuel 1 [] p hp hfail
  exact ⟨hnone, runCleaner_fetch_none cfg host now fuel hnone⟩

/-- Witness for C5 at a host whose page requests all fail. -/
theorem C5_fetch_failure_aborts_witness :
    (getBranches hostFail.fetchPage 1).branches = none ∧
      runCleaner exCfg2 hostFail 0 1 =
        ({ branchesScanned := 0, branchesEligible := 0, branchesDeleted := 0,
           branchesFailed := 0, failedBranches := [], success := false },
         []) :=
  C5_fetch_failure_aborts exCfg2 hostFail 0 1 1 (by decide) rfl

/-- C6: the finalized success flag is true iff the branch fetch succeeded
and the failed-deletion count is zero. -/
theorem C6_success_iff :
    ∀ (cfg : Config) (host : Host) (now : Int) (fuel : Nat),
      (runCleaner cfg host now fuel).1.success = true ↔
        ((getBranches host.fetchPage fuel).branches.isSome = true ∧
         (runCleaner cfg host now fuel).1.branchesFailed = 0) := by
  intro cfg host now fuel
  cases hfetch : (getBranches host.fetchPage fuel).branches with
  | none =>
    rw [runCleaner_fetch_none cfg host now fuel hfetch]
    simp
  | some bs =>
    rw [runCleaner_fetch_some cfg host now fuel bs hfetch]
    cases hdry : cfg.dryRun with
    | true =>
      rw [foldl_deleteBranch_dry]
      simp [initResult]
    | false =>
      rw [foldl_deleteBranch_run]
      simp only [initResult, Option.isSome_some, Bool.true_and, true_and,
        Nat.zero_add]
      rw [List.length_eq_zero, List.filter_eq_nil_iff, List.all_eq_true]
      simp

/-- C7: staleness is the strict comparison of the continuous fractional-day
age against the threshold: age exactly equal to the threshold (60.0 days vs
60) is not stale, while 60.01 days is. -/
theorem C7_strict_fractional_staleness :
    (∀ (cfg : Config) (now updatedAt : Int) (b : Branch),
      b.committed_date = some updatedAt →
      (isBranchStale cfg now b = true ↔
        (cfg.staleDays : ℚ) < ((now : ℚ) - (updatedAt : ℚ)) / msPerDay))
    ∧ isBranchStale exCfg2 (60 * 86400000) bEpoch = false
    ∧ isBranchStale exCfg2 (60 * 86400000 + 864000) bEpoch = true := by
  refine ⟨?_, ?_, ?_⟩
  · intro cfg now updatedAt b h
    simp [isBranchStale, h, gt_iff_lt]
  · rw [isBranchStale_eq_int]; decide
  · rw [isBranchStale_eq_int]; decide

/-- Witness for C7 at the epoch branch, 60.01 days later, threshold 60. -/
theorem C7_strict_fractional_staleness_witness :
    isBranchStale exCfg2 5184864000 bEpoch = true ↔
      (exCfg2.staleDays : ℚ) <
        (((5184864000 : ℤ) : ℚ) - ((0 : ℤ) : ℚ)) / msPerDay :=
  C7_strict_fractional_staleness.1 exCfg2 5184864000 0 bEpoch rfl

/-- C8 counterexample: the filter also reads the clock, so two runs on the
same branch list and the same configuration but at different instants can
disagree (here a branch aged exactly 60 days crosses the threshold one
millisecond later). -/
theorem C8_counterexample :
    ¬ (staleBranches exCfg2 5184000000 [bEpoch] =
       staleBranches exCfg2 5184000001 [bEpoch]) := by
  rw [staleBranches_eq_int, staleBranches_eq_int]
  decide

/-- C8 (amended): the filter is a deterministic function of the branch list,
the main branch name, the stale threshold, the exclusion list and the
current clock reading (it ignores dryRun); two runs with the same clock
reading yield identical eligible sets. -/
theorem C8_filter_deterministic :
    ∀ (cfg cfg' : Config) (now : Int) (branches : List Branch),
      cfg.mainBranch = cfg'.mainBranch →
      cfg.staleDays = cfg'.staleDays →
      cfg.excludedBranches = cfg'.excludedBranches →
      staleBranches cfg now branches = staleBranches cfg' now branches := by
  intro cfg cfg' now branches h1 h2 h3
  cases cfg with
  | mk m s d e =>
    cases cfg' with
    | mk m' s' d' e' =>
      dsimp at h1 h2 h3
      subst h1; subst h2; subst h3
      rfl

/-- Witness for the amended C8: two configurations equal except for dryRun
give the same eligible set on the example branches. -/
theorem C8_filter_deterministic_witness :
    staleBranches exCfg 0 exBranches = staleBranches exCfg2 0 exBranches :=
  C8_filter_deterministic exCfg exCfg2 0 exBranches rfl rfl rfl

/-- C9: with dry-run off and a successful fetch, every eligible branch
increments exactly one of the deleted or failed counts, so deleted + failed
equals the eligible count, and the failed-name list has exactly the failed
count entries, listed in processing order. -/
theorem C9_deletion_accounting :
    ∀ (cfg : Config) (host : Host) (now : Int) (fuel : Nat)
      (bs : List Branch),
      cfg.dryRun = false →
      (getBranches host.fetchPage fuel).branches = some bs →
      (runCleaner cfg host now fuel).1.branchesDeleted +
          (runCleaner cfg host now fuel).1.branchesFailed =
        (runCleaner cfg host now fuel).1.branchesEligible ∧
      (runCleaner cfg host now fuel).1.failedBranches.length =
        (runCleaner cfg host now fuel).1.branchesFailed ∧
      (runCleaner cfg host now fuel).1.failedBranches =
        ((staleBranches cfg now bs).map Branch.name).filter
          (fun n => !(host.deleteOk n)) := by
  intro cfg host now fuel bs hdry hfetch
  rw [runCleaner_fetch_some cfg host now fuel bs hfetch, hdry,
    foldl_deleteBranch_run]
  refine ⟨?_, by simp [initResult], by simp [initResult]⟩
  simp only [initResult, Nat.zero_add]
  rw [length_filter_add_length_filter_not]
  exact List.length_map _ _

/-- Witness for C9 at the five-branch scenario. -/
theorem C9_deletion_accounting_witness :
    (runCleaner exCfg2 exHost2 0 1).1.branchesDeleted +
        (runCleaner exCfg2 exHost2 0 1).1.branchesFailed =
      (runCleaner exCfg2 exHost2 0 1).1.branchesEligible ∧
      (runCleaner exCfg2 exHost2 0 1).1.failedBranches.length =
        (runCleaner exCfg2 exHost2 0 1).1.branchesFailed ∧
      (runCleaner exCfg2 exHost2 0 1).1.failedBranches =
        ((staleBranches exCfg2 0 ex5).map Branch.name).filter
          (fun n => !(exHost2.deleteOk n)) :=
  C9_deletion_accounting exCfg2 exHost2 0 1 ex5 rfl rfl

/-- C10: a branch whose commit timestamp does not parse has no numeric age,
the strict comparison is false, so it is classified not stale and is never
in the eligible set. -/
theorem C10_invalid_date_never_eligible :
    ∀ (cfg : Config) (now : Int) (branches : List Branch) (b : Branch),
      b.committed_date = none →
      ageDays now b = none ∧ isBranchStale cfg now b = false ∧
      b ∉ staleBranches cfg now branches := by
  intro cfg now branches b h
  refine ⟨by simp [ageDays, h], by simp [isBranchStale, h], ?_⟩
  intro hmem
  rw [staleBranches, List.mem_filter] at hmem
  simp [isBranchStale, h] at hmem

/-- Witness for C10 at a branch with an unparsable commit date. -/
theorem C10_invalid_date_never_eligible_witness :
    ageDays 0 bBadDate = none ∧ isBranchStale exCfg 0 bBadDate = false ∧
      bBadDate ∉ staleBranches exCfg 0 [bBadDate] :=
  C10_invalid_date_never_eligible exCfg 0 [bBadDate] bBadDate rfl
